import Mathlib

/-!
Shallow embedding of the `str` interpreter (a small stack-based language):
`src/value.rs`, `src/lexer.rs`, `src/parser.rs`, `src/error.rs`, `src/run.rs`.

Modelling conventions, applied throughout:
* Rust `i64` is modelled as `ℤ` and `f64` as `ℚ`; 64-bit overflow and IEEE
  rounding/`NaN`/`inf` are outside the embedding (no verified property here
  depends on them; places where the difference could show are flagged).
* Rust `String` is modelled as Lean `String`/`List Char`, with byte indices
  identified with character indices (exact for ASCII input; the claims'
  inputs are ASCII).
* `HashMap<String, V>` is modelled as an association list with first-match
  lookup, replace-in-place insert and remove-all-matches removal; a `HashMap`
  holds each key at most once, so these agree with the source observationally.
  The unspecified iteration order of a `HashMap` becomes the list order.
* A Rust panic (an `unwrap` of `None`, an out-of-bounds slice, `% 0`, or the
  `todo!`/`panic!` macros) is modelled as `Option.none` in the builtin
  operations and as `RunRes.panic` in the evaluator.
* `&mut self` state threading becomes explicit state passing: an evaluator
  step returns the updated `Program` both on success and on error (in the
  source an error return leaves `self` holding every mutation made so far).
* The recursion of the lexer, parser and evaluator is made total with an
  explicit fuel parameter (a distinguished `timeout` result); the source can
  recurse unboundedly (`§5` of the design).  All theorems either hold for
  every fuel or are evaluated at a concrete, sufficient fuel.
* The native operations `_pos`, `_count`, `_split` and the never-registered
  `_pow` are not embedded: no claim concerns them, and no theorem below
  depends on a registry that contains them.
-/

namespace Str

/-- Characters that the banned-brace/quote rules make awkward to write as
literals; bound once by code point. `"`, `'`, `{`, `}`. -/
def quoteChar : Char := Char.ofNat 34

def apostChar : Char := Char.ofNat 39

def lbraceChar : Char := Char.ofNat 123

def rbraceChar : Char := Char.ofNat 125

/-! ## Position (`src/lexer.rs`, `struct Position`)

A `Range<usize>` is a pair (start, end). -/

structure Position where
  idxS : Nat
  idxE : Nat
  lnS : Nat
  lnE : Nat
  colS : Nat
  colE : Nat
deriving DecidableEq

/-- `Position::extend`: move only the end bounds. -/
def Position.extend (p q : Position) : Position :=
  { p with idxE := q.idxE, lnE := q.lnE, colE := q.colE }

/-- `Position::zero`. -/
def Position.zero : Position := ⟨0, 1, 0, 1, 0, 1⟩

/-! ## Value and Type (`src/value.rs`) -/

inductive Value where
  | string (s : String)
  | char (c : Char)
  | int (n : ℤ)
  | float (q : ℚ)
  | boolean (b : Bool)
deriving DecidableEq

/-- `Type` in the source; `Ty` here because `Type` is a Lean keyword. -/
inductive Ty where
  | any
  | string
  | char
  | int
  | float
  | boolean
deriving DecidableEq

/-- `Value::typ`. -/
def Value.typ : Value → Ty
  | .string _ => .string
  | .char _ => .char
  | .int _ => .int
  | .float _ => .float
  | .boolean _ => .boolean

/-- `PartialEq for Type`: `Any` matches every type in either position,
concrete types match exactly. -/
def Ty.eqv : Ty → Ty → Bool
  | .any, _ => true
  | _, .any => true
  | .string, .string => true
  | .char, .char => true
  | .int, .int => true
  | .float, .float => true
  | .boolean, .boolean => true
  | _, _ => false

/-- `Debug`/`Display for Type`. -/
def Ty.display : Ty → String
  | .any => "any"
  | .string => "str"
  | .char => "char"
  | .int => "int"
  | .float => "float"
  | .boolean => "bool"

/-- `Display for Value` (used by `_join` on non-`String` values). The
rendering of a `float` stands in for Rust's `f64` formatting. -/
def Value.display : Value → String
  | .string s => s
  | .char c => String.mk [c]
  | .int n => toString n
  | .float q => toString q
  | .boolean b => if b then "true" else "false"

/-- Rust `Debug` escaping of one character inside a `{x:?}` string (the
escapes that can arise from the claims' inputs; unicode escapes of other
non-printables are not modelled). -/
def rustCharEscape (c : Char) : String :=
  if c = quoteChar then String.mk ['\\', quoteChar]
  else if c = '\\' then "\\\\"
  else if c = '\n' then "\\n"
  else if c = '\t' then "\\t"
  else if c = '\r' then "\\r"
  else String.mk [c]

/-- Rust `format!("{s:?}")` for a string: quoted and escaped. -/
def rustDebugString (s : String) : String :=
  String.mk [quoteChar] ++ String.join (s.toList.map rustCharEscape) ++ String.mk [quoteChar]

/-! ## Errors (`src/error.rs`, `error_pos!` in `src/main.rs`) -/

structure Err where
  msg : String
  pos : Option Position
deriving DecidableEq

/-! ## Tokens (`src/lexer.rs`, `enum Instr`, `struct Token`)

`Instr::Copy(Box<Token>)` is flattened to the wrapped token's two fields. -/

inductive Instr where
  | string (s : String)
  | char (c : Char)
  | int (n : ℤ)
  | float (q : ℚ)
  | boolean (b : Bool)
  | id (s : String)
  | take (ids : List String)
  | copyTo (ids : List String)
  | copy (inner : Instr) (innerPos : Position)
  | endKw
  | ifKw
  | elseKw
  | repeatKw
  | macroKw
deriving DecidableEq

structure Token where
  instr : Instr
  pos : Position
deriving DecidableEq

/-- `Instr::name`, including the source's "copt-to-indentifiers" typo. -/
def Instr.name : Instr → String
  | .string _ => "string"
  | .char _ => "char"
  | .int _ => "int"
  | .float _ => "float"
  | .boolean _ => "boolean"
  | .id _ => "identifier"
  | .take _ => "take-into-identifiers"
  | .copyTo _ => "copt-to-identifiers"
  | .copy inner _ => "copy of " ++ inner.name
  | .endKw => "end-control-flow instruction"
  | .ifKw => "if-control-flow instruction"
  | .elseKw => "else-control-flow instruction"
  | .repeatKw => "repeat-control-flow instruction"
  | .macroKw => "macro instruction"

/-- `Display for Instr` (used in the parser's "unexpected {}" error). -/
def Instr.display : Instr → String
  | .string s => rustDebugString s
  | .char c => String.mk [apostChar] ++ rustCharEscape c ++ String.mk [apostChar]
  | .int n => toString n
  | .float q => toString q
  | .boolean b => if b then "true" else "false"
  | .id s => s
  | .take ids => "(" ++ String.intercalate " " ids ++ ")"
  | .copyTo ids => "\x7b" ++ String.intercalate " " ids ++ "\x7d"
  | .copy inner _ => "@" ++ inner.display
  | .endKw => ";"
  | .ifKw => "if"
  | .elseKw => "else"
  | .repeatKw => "repeat"
  | .macroKw => "macro"

/-! ## AST (`src/parser.rs`, `enum NodeType`, `struct Node`)

The source's `Node { node: NodeType, pos: Position }` is flattened: each
constructor carries the node's `Position` as its last field. -/

inductive Node where
  | chunk (ns : List Node) (pos : Position)
  | string (s : String) (pos : Position)
  | char (c : Char) (pos : Position)
  | int (n : ℤ) (pos : Position)
  | float (q : ℚ) (pos : Position)
  | boolean (b : Bool) (pos : Position)
  | id (s : String) (pos : Position)
  | take (ids : List String) (pos : Position)
  | copyTo (ids : List String) (pos : Position)
  | copy (inner : Instr) (innerPos : Position) (pos : Position)
  | ifN (body : Node) (els : Option Node) (pos : Position)
  | repeatN (body : Node) (pos : Position)
  | macroN (nm : String) (tys : List Ty) (body : Node) (pos : Position)

/-- `Node::pos` projection (the flattened `pos` field). -/
def Node.pos : Node → Position
  | .chunk _ p => p
  | .string _ p => p
  | .char _ p => p
  | .int _ p => p
  | .float _ p => p
  | .boolean _ p => p
  | .id _ p => p
  | .take _ p => p
  | .copyTo _ p => p
  | .copy _ _ p => p
  | .ifN _ _ p => p
  | .repeatN _ p => p
  | .macroN _ _ _ p => p

/-! ## Association-list model of `HashMap<String, V>` -/

/-- `HashMap::get`: first match. -/
def lookupA {α : Type} : List (String × α) → String → Option α
  | [], _ => none
  | (k, v) :: rest, key => if k = key then some v else lookupA rest key

/-- `HashMap::insert`: replace in place, else append. -/
def insertA {α : Type} : List (String × α) → String → α → List (String × α)
  | [], key, v => [(key, v)]
  | (k, w) :: rest, key, v =>
    if k = key then (key, v) :: rest else (k, w) :: insertA rest key v

/-- `HashMap::remove`: the key is gone afterwards. -/
def removeA {α : Type} (l : List (String × α)) (key : String) : List (String × α) :=
  l.filter fun kv => kv.1 ≠ key

/-! ## Dispatch registry (`src/run.rs`: `MacroType`, `MacroOverload`) -/

/-- The native implementations (`fn(&mut Program) -> Result<(), Error>`)
that `std_program` registers, by name; `MacroType::Operation` stores one. -/
inductive OpTag where
  | stackLen
  | len
  | drop
  | copy
  | swap
  | over
  | add
  | sub
  | mult
  | div
  | module
  | and
  | or
  | not
  | eq
  | ne
  | lt
  | gt
  | le
  | ge
  | index
  | indexRange
  | rev
  | join
deriving DecidableEq

inductive MacroType where
  | macroBody (body : Node)
  | operation (tag : OpTag)

/-- A `MacroOverload` is its `macros: HashMap<Vec<Type>, MacroType>`,
modelled as the candidate list in (the hash map's unspecified) iteration
order. -/
abbrev MacroOverload : Type := List (List Ty × MacroType)

/-- The inner loop of `MacroOverload::get`: candidate types, read
right-to-left, against the stack from the top backward (the stack's head is
its top here), `Any`-aware. -/
def typesMatch (types : List Ty) (stack : List Value) : Bool :=
  ((types.reverse).zip stack).all fun tv => Ty.eqv (tv.2.typ) tv.1

/-- `MacroOverload::get`: first candidate whose type sequence is no longer
than the stack and matches it top-down. -/
def overloadGet : MacroOverload → List Value → Option MacroType
  | [], _ => none
  | (types, mt) :: rest, stack =>
    if types.length ≤ stack.length then
      if typesMatch types stack then some mt else overloadGet rest stack
    else overloadGet rest stack

/-- `MacroOverload::display`: one "[types] id" line per candidate. -/
def overloadDisplay (ov : MacroOverload) (id : String) : String :=
  String.join (ov.map fun c =>
    "[" ++ String.intercalate " " (c.1.map Ty.display) ++ "] " ++ id ++ "\n")

/-! ## Program state (`src/run.rs`, `struct Stack`, `struct Program`)

The `Stack`'s `Vec<Value>` pushes and pops at its end; here the list's head
is the stack's top. -/

structure Program where
  vars : List (String × Value)
  macros : List (String × MacroOverload)
  stack : List Value

/-- `Program::display_macro`. -/
def Program.displayMacro (p : Program) (id : String) : String :=
  match lookupA p.macros id with
  | some ov => overloadDisplay ov id
  | none => "no definition found"

/-! ## Native operations (`src/run.rs`, `fn _stack_len` … `fn _join`)

Each one takes the stack (top first) and returns the new stack, or `none`
for a Rust panic (`unwrap` on an empty pop/peek, a type-check `panic!`, an
out-of-bounds slice, `% 0`). -/

def _stack_len (st : List Value) : Option (List Value) :=
  some (.int (st.length : ℤ) :: st)

def _len (st : List Value) : Option (List Value) :=
  match st with
  | .string s :: rest => some (.int (s.length : ℤ) :: rest)
  | _ => none

def _drop (st : List Value) : Option (List Value) :=
  match st with
  | _ :: rest => some rest
  | [] => some []

def _copy (st : List Value) : Option (List Value) :=
  match st with
  | v :: rest => some (v :: v :: rest)
  | [] => none

def _swap (st : List Value) : Option (List Value) :=
  match st with
  | b :: a :: rest => some (a :: b :: rest)
  | _ => none

def _over (st : List Value) : Option (List Value) :=
  match st with
  | b :: a :: rest => some (a :: b :: a :: rest)
  | _ => none

def _add (st : List Value) : Option (List Value) :=
  match st with
  | b :: a :: rest =>
    match a, b with
    | .int v1, .int v2 => some (.int (v1 + v2) :: rest)
    | .float v1, .float v2 => some (.float (v1 + v2) :: rest)
    | .int n, .float f => some (.float ((n : ℚ) + f) :: rest)
    | .float f, .int n => some (.float ((n : ℚ) + f) :: rest)
    | .string v1, .string v2 => some (.string (v1 ++ v2) :: rest)
    | .string v1, .char v2 => some (.string (v1.push v2) :: rest)
    | _, _ => none
  | _ => none

def _sub (st : List Value) : Option (List Value) :=
  match st with
  | b :: a :: rest =>
    match a, b with
    | .int v1, .int v2 => some (.int (v1 - v2) :: rest)
    | .float v1, .float v2 => some (.float (v1 - v2) :: rest)
    | .int n, .float f => some (.float ((n : ℚ) - f) :: rest)
    | .float f, .int n => some (.float (f - (n : ℚ)) :: rest)
    | _, _ => none
  | _ => none

def _mult (st : List Value) : Option (List Value) :=
  match st with
  | b :: a :: rest =>
    match a, b with
    | .int v1, .int v2 => some (.int (v1 * v2) :: rest)
    | .float v1, .float v2 => some (.float (v1 * v2) :: rest)
    | .int n, .float f => some (.float ((n : ℚ) * f) :: rest)
    | .float f, .int n => some (.float (f * (n : ℚ)) :: rest)
    | .string s, .int rep => some (.string (String.join (List.replicate rep.toNat s)) :: rest)
    | .char c, .int rep =>
      some (.string (String.join (List.replicate rep.toNat (String.mk [c]))) :: rest)
    | _, _ => none
  | _ => none

/-- `_div`: note the `Int`/`Int` case converts both operands to `f64` and
pushes a `Float`. Division by zero is `inf`/`NaN` in `f64`; in this `ℚ`
model it is `0` — the theorems below avoid zero divisors. -/
def _div (st : List Value) : Option (List Value) :=
  match st with
  | b :: a :: rest =>
    match a, b with
    | .int v1, .int v2 => some (.float ((v1 : ℚ) / (v2 : ℚ)) :: rest)
    | .float v1, .float v2 => some (.float (v1 / v2) :: rest)
    | .int n, .float f => some (.float ((n : ℚ) / f) :: rest)
    | .float f, .int n => some (.float (f / (n : ℚ)) :: rest)
    | _, _ => none
  | _ => none

/-- Truncation toward zero of a rational (`f64 %` and Rust `i64 %` truncate
toward zero). -/
def ratTrunc (x : ℚ) : ℤ := x.num / (x.den : ℤ)

/-- The `f64 %` remainder, modelled exactly over `ℚ` (`NaN` for a zero
divisor is not representable; the theorems below avoid it). -/
def ratRem (x y : ℚ) : ℚ := x - y * (ratTrunc (x / y) : ℚ)

/-- Rust `i64 %`: truncated remainder, panics on a zero divisor. -/
def _module (st : List Value) : Option (List Value) :=
  match st with
  | b :: a :: rest =>
    match a, b with
    | .int v1, .int v2 =>
      if v2 = 0 then none else some (.int (Int.tmod v1 v2) :: rest)
    | .float v1, .float v2 => some (.float (ratRem v1 v2) :: rest)
    | .int n, .float f => some (.float (ratRem (n : ℚ) f) :: rest)
    | .float f, .int n => some (.float (ratRem f (n : ℚ)) :: rest)
    | _, _ => none
  | _ => none

def _and (st : List Value) : Option (List Value) :=
  match st with
  | .boolean v2 :: .boolean v1 :: rest => some (.boolean (v1 && v2) :: rest)
  | _ => none

def _or (st : List Value) : Option (List Value) :=
  match st with
  | .boolean v2 :: .boolean v1 :: rest => some (.boolean (v1 || v2) :: rest)
  | _ => none

def _not (st : List Value) : Option (List Value) :=
  match st with
  | .boolean v :: rest => some (.boolean (!v) :: rest)
  | _ => none

def _eq (st : List Value) : Option (List Value) :=
  match st with
  | b :: a :: rest => some (.boolean (decide (a = b)) :: rest)
  | _ => none

def _ne (st : List Value) : Option (List Value) :=
  match st with
  | b :: a :: rest => some (.boolean (decide (a ≠ b)) :: rest)
  | _ => none

def _lt (st : List Value) : Option (List Value) :=
  match st with
  | b :: a :: rest =>
    match a, b with
    | .int v1, .int v2 => some (.boolean (decide (v1 < v2)) :: rest)
    | .float v1, .float v2 => some (.boolean (decide (v1 < v2)) :: rest)
    | .int n, .float f => some (.boolean (decide ((n : ℚ) < f)) :: rest)
    | .float f, .int n => some (.boolean (decide (f < (n : ℚ))) :: rest)
    | _, _ => none
  | _ => none

def _gt (st : List Value) : Option (List Value) :=
  match st with
  | b :: a :: rest =>
    match a, b with
    | .int v1, .int v2 => some (.boolean (decide (v1 > v2)) :: rest)
    | .float v1, .float v2 => some (.boolean (decide (v1 > v2)) :: rest)
    | .int n, .float f => some (.boolean (decide ((n : ℚ) > f)) :: rest)
    | .float f, .int n => some (.boolean (decide (f > (n : ℚ))) :: rest)
    | _, _ => none
  | _ => none

def _le (st : List Value) : Option (List Value) :=
  match st with
  | b :: a :: rest =>
    match a, b with
    | .int v1, .int v2 => some (.boolean (decide (v1 ≤ v2)) :: rest)
    | .float v1, .float v2 => some (.boolean (decide (v1 ≤ v2)) :: rest)
    | .int n, .float f => some (.boolean (decide ((n : ℚ) ≤ f)) :: rest)
    | .float f, .int n => some (.boolean (decide (f ≤ (n : ℚ))) :: rest)
    | _, _ => none
  | _ => none

def _ge (st : List Value) : Option (List Value) :=
  match st with
  | b :: a :: rest =>
    match a, b with
    | .int v1, .int v2 => some (.boolean (decide (v1 ≥ v2)) :: rest)
    | .float v1, .float v2 => some (.boolean (decide (v1 ≥ v2)) :: rest)
    | .int n, .float f => some (.boolean (decide ((n : ℚ) ≥ f)) :: rest)
    | .float f, .int n => some (.boolean (decide (f ≥ (n : ℚ))) :: rest)
    | _, _ => none
  | _ => none

/-- The index-wrapping computation shared by `_index`, `_index_range` and
`_remove`:
`if idx < 0 { len - idx.abs() % len } else { idx.abs() % len }`.
A caller with an empty string panics first (`% 0`); for a negative index
whose absolute value is a multiple of `len` this yields `len`, one past the
end. -/
def wrapIndex (idx : ℤ) (len : Nat) : Nat :=
  if idx < 0 then len - idx.natAbs % len else idx.natAbs % len

/-- `_index`: `string[idx..idx+1].chars().next().unwrap()`; `none` models
the `% 0` panic on an empty string and the slice panic when the wrapped
index falls out of range. -/
def _index (st : List Value) : Option (List Value) :=
  match st with
  | .int idx :: .string s :: rest =>
    if s.length = 0 then none
    else
      match s.toList[wrapIndex idx s.length]? with
      | some c => some (.char c :: rest)
      | none => none
  | _ => none

/-- `_index_range`: `string[start..end].to_string()` with both bounds
wrapped; `none` models the `% 0` and slice panics. -/
def _index_range (st : List Value) : Option (List Value) :=
  match st with
  | .int e :: .int st2 :: .string s :: rest =>
    if s.length = 0 then none
    else
      let a := wrapIndex st2 s.length
      let b := wrapIndex e s.length
      if a ≤ b ∧ b ≤ s.length then
        some (.string (String.mk ((s.toList.drop a).take (b - a))) :: rest)
      else none
  | _ => none

def _rev (st : List Value) : Option (List Value) :=
  match st with
  | .string s :: rest => some (.string (String.mk s.toList.reverse) :: rest)
  | _ => none

/-- The per-value conversion inside `_join`: a `String` is taken as is,
anything else is rendered with `Display`. -/
def joinPart : Value → String
  | .string s => s
  | v => v.display

/-- `_join`: pops the separator, drains the whole remaining stack (top
first), reverses to bottom-first order and pushes the joined string. -/
def _join (st : List Value) : Option (List Value) :=
  match st with
  | a :: rest =>
    let strings := (rest.map joinPart).reverse
    match a with
    | .char c => some [.string (String.intercalate (String.mk [c]) strings)]
    | .string s => some [.string (String.intercalate s strings)]
    | _ => none
  | [] => none

/-- Table from an `Operation` tag to its implementation. -/
def applyOp : OpTag → List Value → Option (List Value)
  | .stackLen => _stack_len
  | .len => _len
  | .drop => _drop
  | .copy => _copy
  | .swap => _swap
  | .over => _over
  | .add => _add
  | .sub => _sub
  | .mult => _mult
  | .div => _div
  | .module => _module
  | .and => _and
  | .or => _or
  | .not => _not
  | .eq => _eq
  | .ne => _ne
  | .lt => _lt
  | .gt => _gt
  | .le => _le
  | .ge => _ge
  | .index => _index
  | .indexRange => _index_range
  | .rev => _rev
  | .join => _join

/-! ## The evaluator (`src/run.rs`, `Program::run`)

`Program::run` mutates `self` and returns `Result<(), Error>`; here a step
returns the updated state.  Because the source mutates in place, the state
at the moment of an error is observable, so `err` carries it.  `panic`
models a Rust panic (which aborts the process), `timeout` is fuel
exhaustion — an artifact of the embedding, not a behavior of the source. -/

inductive RunRes where
  | ok (p : Program)
  | err (p : Program) (e : Err)
  | panic
  | timeout

/-- The `NodeType::Take` loop: pop and bind each name in order; on an empty
stack return the underflow error, keeping the bindings made so far. -/
def takeLoop (pos : Position) : List String → Program → RunRes
  | [], p => .ok p
  | id :: ids, p =>
    match p.stack with
    | v :: rest => takeLoop pos ids { p with vars := insertA p.vars id v, stack := rest }
    | [] =>
      .err p ⟨"cannot take value to " ++ rustDebugString id ++ " due to stack underflow",
        some pos⟩

/-- The `NodeType::CopyTo` loop: peek (not pop) the top and bind each name
to it. -/
def copyToLoop (pos : Position) : List String → Program → RunRes
  | [], p => .ok p
  | id :: ids, p =>
    match p.stack with
    | v :: _ => copyToLoop pos ids { p with vars := insertA p.vars id v }
    | [] =>
      .err p ⟨"cannot take value to " ++ rustDebugString id ++ " due to stack underflow",
        some pos⟩

/-- The `Instr::CopyTo` arm of `NodeType::Copy`: push a clone of each named
variable, iterating the name list in reverse. -/
def copyList (ipos : Position) : List String → Program → RunRes
  | [], p => .ok p
  | id :: ids, p =>
    match lookupA p.vars id with
    | some v => copyList ipos ids { p with stack := v :: p.stack }
    | none =>
      match lookupA p.macros id with
      | some _ =>
        .err p ⟨"cannot copy a macro, " ++ rustDebugString id ++ " is defined as a macro",
          some ipos⟩
      | none => .err p ⟨"unknown id " ++ rustDebugString id, some ipos⟩

/-- `NodeType::Copy`: dispatch on the wrapped token's payload. -/
def runCopy (p : Program) (inner : Instr) (ipos : Position) : RunRes :=
  match inner with
  | .id id =>
    match lookupA p.vars id with
    | some v => .ok { p with stack := v :: p.stack }
    | none =>
      match lookupA p.macros id with
      | some _ =>
        .err p ⟨"cannot copy a macro, " ++ rustDebugString id ++ " is defined as a macro",
          some ipos⟩
      | none => .err p ⟨"unknown id " ++ rustDebugString id, some ipos⟩
  | .copyTo ids => copyList ipos ids.reverse p
  | i =>
    .err p ⟨"expected identifier or copy-to-indentifiers, got " ++ i.name, some ipos⟩

mutual

/-- `Program::run`, one call.  Fuel decreases on every recursive call (the
source can recurse unboundedly through macro bodies and `Repeat`).

The `If` and `Repeat` arms reproduce the source exactly: the result of
`self.run(*case_node)` / `self.run(*else_node)` / `self.run(*body.clone())`
is **discarded** (no `?`), so an error inside those bodies is swallowed and
evaluation continues from the body's partial state; a panic still aborts. -/
def runNode : Nat → Program → Node → RunRes
  | 0, _, _ => .timeout
  | fuel + 1, p, node =>
    match node with
    | .chunk ns _ => runList fuel p ns
    | .string s _ => .ok { p with stack := .string s :: p.stack }
    | .char c _ => .ok { p with stack := .char c :: p.stack }
    | .int n _ => .ok { p with stack := .int n :: p.stack }
    | .float q _ => .ok { p with stack := .float q :: p.stack }
    | .boolean b _ => .ok { p with stack := .boolean b :: p.stack }
    | .take ids pos => takeLoop pos ids p
    | .copyTo ids pos => copyToLoop pos ids p
    | .copy inner ipos _ => runCopy p inner ipos
    | .id id pos =>
      match lookupA p.macros id with
      | some ov =>
        match overloadGet ov p.stack with
        | some (.macroBody body) => runNode fuel p body
        | some (.operation tag) =>
          match applyOp tag p.stack with
          | some st => .ok { p with stack := st }
          | none => .panic
        | none =>
          .err p ⟨"no macro definition " ++ rustDebugString id ++
            " found with current stack, following macros are defined:\n" ++
            p.displayMacro id ++ "\n", some pos⟩
      | none =>
        match lookupA p.vars id with
        | some v => .ok { p with vars := removeA p.vars id, stack := v :: p.stack }
        | none => .err p ⟨"unknown id " ++ rustDebugString id, some pos⟩
    | .ifN body els pos =>
      match p.stack with
      | [] =>
        .err p ⟨"couldn\x27t perform if-control-flow operation due to stack underflow",
          some pos⟩
      | cond :: rest =>
        match cond with
        | .boolean b =>
          if b then
            match runNode fuel { p with stack := rest } body with
            | .ok p2 => .ok p2
            | .err p2 _ => .ok p2
            | r => r
          else
            match els with
            | some e =>
              match runNode fuel { p with stack := rest } e with
              | .ok p2 => .ok p2
              | .err p2 _ => .ok p2
              | r => r
            | none => .ok { p with stack := rest }
        | v =>
          .err { p with stack := rest }
            ⟨"expected a boolean value on top of the stack, got " ++ (v.typ).display,
              some pos⟩
    | .repeatN body pos =>
      match p.stack with
      | [] =>
        .err p ⟨"couldn\x27t perform if-control-flow operation due to stack underflow",
          some pos⟩
      | count :: rest =>
        match count with
        | .int n => runTimes fuel { p with stack := rest } body n.toNat
        | v =>
          .err { p with stack := rest }
            ⟨"expected a boolean value on top of the stack, got " ++ (v.typ).display,
              some pos⟩
    | .macroN _ _ _ _ => .panic

/-- The `NodeType::Chunk` loop: `self.run(node)?` for each child — the
first error aborts the remaining siblings and propagates. -/
def runList : Nat → Program → List Node → RunRes
  | _, p, [] => .ok p
  | 0, _, _ :: _ => .timeout
  | fuel + 1, p, n :: ns =>
    match runNode fuel p n with
    | .ok p2 => runList fuel p2 ns
    | r => r

/-- The `NodeType::Repeat` loop, `for _ in 0..count`: the body's result is
discarded each iteration (errors are swallowed, state is kept). -/
def runTimes : Nat → Program → Node → Nat → RunRes
  | _, p, _, 0 => .ok p
  | 0, _, _, _ + 1 => .timeout
  | fuel + 1, p, body, k + 1 =>
    match runNode fuel p body with
    | .ok p2 => runTimes fuel p2 body k
    | .err p2 _ => runTimes fuel p2 body k
    | r => r

end

/-! ## Lexer (`src/lexer.rs`, `struct Lexer`)

The text is a character list; the source indexes bytes (`get(idx..idx+1)`),
identical on ASCII input.  Bounded scanning loops take an explicit budget of
`text.length` steps, always sufficient because each step consumes one
character; the mutually recursive `next` takes fuel. -/

def SYMBOLS : List Char := [quoteChar, apostChar, '(', ')', lbraceChar, rbraceChar, '@']

structure Lexer where
  text : List Char
  idx : Nat
  ln : Nat
  col : Nat

/-- `Lexer::new`. -/
def Lexer.new (text : List Char) : Lexer := ⟨text, 0, 0, 0⟩

/-- `Lexer::get`. -/
def Lexer.get (lx : Lexer) : Option Char := lx.text[lx.idx]?

/-- `Lexer::pos`. -/
def Lexer.pos (lx : Lexer) : Position :=
  ⟨lx.idx, lx.idx + 1, lx.ln, lx.ln + 1, lx.col, lx.col + 1⟩

/-- `Lexer::advance`: step one character; a newline now under the cursor
starts a new line. -/
def Lexer.advance (lx : Lexer) : Lexer :=
  let lx2 : Lexer := { lx with idx := lx.idx + 1, col := lx.col + 1 }
  if lx2.get = some '\n' then { lx2 with ln := lx2.ln + 1, col := 0 } else lx2

/-- The loop of `Lexer::advance_ws`: skip while whitespace and not one of
the seven reserved symbols. -/
def advanceWsGo : Nat → Lexer → Lexer
  | 0, lx => lx
  | n + 1, lx =>
    match lx.get with
    | some c =>
      if c.isWhitespace && !(SYMBOLS.contains c) then advanceWsGo n lx.advance else lx
    | none => lx

/-- `Lexer::advance_ws`. -/
def Lexer.advanceWs (lx : Lexer) : Lexer := advanceWsGo (lx.text.length - lx.idx) lx

/-- The interior loop of the `"…"` arm: collect until the closing quote or
the end of input. -/
def lexStrGo : Nat → Lexer → List Char × Lexer
  | 0, lx => ([], lx)
  | n + 1, lx =>
    match lx.get with
    | some c =>
      if c = quoteChar then ([], lx)
      else
        let r := lexStrGo n lx.advance
        (c :: r.1, r.2)
    | none => ([], lx)

/-- The `#` arm: consume through the newline. -/
def skipCommentGo : Nat → Lexer → Lexer
  | 0, lx => lx
  | n + 1, lx =>
    match lx.get with
    | some c => if c = '\n' then lx.advance else skipCommentGo n lx.advance
    | none => lx

/-- The bare-word loop: accumulate until whitespace or a symbol, extending
the position over each further character. -/
def lexWordGo : Nat → Lexer → Position → List Char × Position × Lexer
  | 0, lx, pos => ([], pos, lx)
  | n + 1, lx, pos =>
    match lx.get with
    | some c =>
      if c.isWhitespace || SYMBOLS.contains c then ([], pos, lx)
      else
        let r := lexWordGo n lx.advance (pos.extend lx.pos)
        (c :: r.1, r.2.1, r.2.2)
    | none => ([], pos, lx)

def digitsVal (cs : List Char) : ℕ :=
  cs.foldl (fun acc c => acc * 10 + (c.toNat - 48)) 0

/-- `id.parse::<i64>()` at `Instr::get`'s call site (first char a digit):
all decimal digits.  The `i64` range (overflow makes the parse fail and
fall through to `f64`) is not modelled. -/
def parseI64 (cs : List Char) : Option ℤ :=
  if cs ≠ [] ∧ cs.all Char.isDigit then some (digitsVal cs : ℤ) else none

/-- Split at the first dot, if any. -/
def splitDot : List Char → List Char × Option (List Char)
  | [] => ([], none)
  | c :: cs =>
    if c = '.' then ([], some cs)
    else
      let r := splitDot cs
      (c :: r.1, r.2)

/-- `id.parse::<f64>()` for the shapes reachable here: `digits` or
`digits.digits` (possibly no fraction digits).  Exponent forms of the `f64`
grammar are not modelled. -/
def parseF64 (cs : List Char) : Option ℚ :=
  match splitDot cs with
  | (ip, none) =>
    if ip ≠ [] ∧ ip.all Char.isDigit then some ((digitsVal ip : ℚ)) else none
  | (ip, some fp) =>
    if ip ≠ [] ∧ ip.all Char.isDigit ∧ fp.all Char.isDigit then
      some ((digitsVal ip : ℚ) + (digitsVal fp : ℚ) / (10 : ℚ) ^ fp.length)
    else none

/-- `Instr::get`: keywords, numbers (leading digit), bare identifiers. -/
def instrGet (id : String) (pos : Position) : Except Err Instr :=
  if id = "true" then .ok (.boolean true)
  else if id = "false" then .ok (.boolean false)
  else if id = "end" then .ok .endKw
  else if id = "if" then .ok .ifKw
  else if id = "else" then .ok .elseKw
  else if id = "repeat" then .ok .repeatKw
  else if id = "macro" then .ok .macroKw
  else
    match id.toList with
    | c :: _ =>
      if c.isDigit then
        match parseI64 id.toList with
        | some n => .ok (.int n)
        | none =>
          match parseF64 id.toList with
          | some q => .ok (.float q)
          | none =>
            .error ⟨"error occurd while parsing the number " ++ rustDebugString id ++
              ": invalid float literal", some pos⟩
      else .ok (.id id)
    | [] => .error ⟨"empty id", some pos⟩

/-- One `Lexer::next` result. -/
inductive LexRes where
  | tok (t : Token) (lx : Lexer)
  | eof (lx : Lexer)
  | err (e : Err)
  | timeout

/-- The `(`/`{` group loop's result. -/
inductive IdsRes where
  | ok (ids : List String) (lx : Lexer)
  | err (e : Err)
  | timeout

mutual

/-- `Lexer::next`. -/
def lexNext : Nat → Lexer → LexRes
  | 0, _ => .timeout
  | fuel + 1, lx0 =>
    let lx := lx0.advanceWs
    let pos := lx.pos
    match lx.get with
    | none => .eof lx
    | some c =>
      if c = quoteChar then
        let lx1 := lx.advance
        let r := lexStrGo lx1.text.length lx1
        if r.2.get = none then .err ⟨"unclosed string", some pos⟩
        else .tok ⟨.string (String.mk r.1), pos.extend r.2.pos⟩ r.2.advance
      else if c = apostChar then
        let lx1 := lx.advance
        match lx1.get with
        | some ch =>
          let lx2 := lx1.advance
          if lx2.get = some apostChar then
            .tok ⟨.char ch, pos.extend lx2.pos⟩ lx2.advance
          else .err ⟨"unclosed character", some pos⟩
        | none => .err ⟨"expected character", some pos⟩
      else if c = '(' then
        match lexGroup fuel lx.advance ')' "unclosed identifier take" pos with
        | .ok ids lxg => .tok ⟨.take ids.reverse, pos.extend lxg.pos⟩ lxg.advance
        | .err e => .err e
        | .timeout => .timeout
      else if c = lbraceChar then
        match lexGroup fuel lx.advance rbraceChar "unclosed identifier copy" pos with
        | .ok ids lxg => .tok ⟨.copyTo ids.reverse, pos.extend lxg.pos⟩ lxg.advance
        | .err e => .err e
        | .timeout => .timeout
      else if c = '@' then
        match lexNext fuel lx.advance with
        | .tok t lx2 => .tok ⟨.copy t.instr t.pos, pos.extend t.pos⟩ lx2
        | .eof _ => .err ⟨"unexpected end", some pos⟩
        | r => r
      else if c = '#' then
        lexNext fuel (skipCommentGo lx.text.length lx)
      else
        let lx1 := lx.advance
        let r := lexWordGo lx1.text.length lx1 pos
        match instrGet (String.mk (c :: r.1)) r.2.1 with
        | .ok i => .tok ⟨i, r.2.1⟩ r.2.2
        | .error e => .err e

/-- The `(…)`/`{…}` interior loop: collect bare identifiers until the
closing symbol; anything else is fatal, and running out of input is the
"unclosed" error. -/
def lexGroup : Nat → Lexer → Char → String → Position → IdsRes
  | 0, _, _, _, _ => .timeout
  | fuel + 1, lx, close, unclosedMsg, pos =>
    match lx.get with
    | some c =>
      if c = close then .ok [] lx
      else
        match lexNext fuel lx with
        | .tok t lx2 =>
          match t.instr with
          | .id s =>
            match lexGroup fuel lx2 close unclosedMsg pos with
            | .ok ids lx3 => .ok (s :: ids) lx3
            | r => r
          | i => .err ⟨"expected identifier, got " ++ i.name, some pos⟩
        | .eof _ => .err ⟨unclosedMsg, some pos⟩
        | .err e => .err e
        | .timeout => .timeout
    | none => .err ⟨unclosedMsg, some pos⟩

end

/-- `Lexer::lex` / the `lex` entry point's result. -/
inductive ToksRes where
  | toks (ts : List Token) (lx : Lexer)
  | err (e : Err)
  | timeout

/-- `Lexer::lex`: collect tokens until `next` returns `None`. -/
def lexAll : Nat → Lexer → ToksRes
  | 0, _ => .timeout
  | fuel + 1, lx =>
    match lexNext fuel lx with
    | .tok t lx2 =>
      match lexAll fuel lx2 with
      | .toks ts lx3 => .toks (t :: ts) lx3
      | r => r
    | .eof lx2 => .toks [] lx2
    | .err e => .err e
    | .timeout => .timeout

/-- `lex(text)`. -/
def lex (fuel : Nat) (text : String) : ToksRes := lexAll fuel (Lexer.new text.toList)

/-! ## Parser (`src/parser.rs`, `struct Parser`) -/

structure Parser where
  tokens : List Token
  idx : Nat

/-- `Parser::new`. -/
def Parser.new (tokens : List Token) : Parser := ⟨tokens, 0⟩

/-- `Parser::get`. -/
def Parser.get (ps : Parser) : Option Token := ps.tokens[ps.idx]?

/-- `Parser::advance`. -/
def Parser.advance (ps : Parser) : Parser := { ps with idx := ps.idx + 1 }

/-- One `Parser::next` result. -/
inductive ParseRes where
  | node (n : Node) (ps : Parser)
  | eof (ps : Parser)
  | err (e : Err)
  | timeout

/-- A control-construct body loop's result: the nodes, the position as
extended over them, and the parser state after the loop. -/
inductive BodyRes where
  | ok (ns : List Node) (pos : Position) (ps : Parser)
  | err (e : Err)
  | timeout

mutual

/-- `Parser::next`.  Note the `If`/`Repeat` body loops also end at
end-of-tokens, without requiring the closing `End`. -/
def parserNext : Nat → Parser → ParseRes
  | 0, _ => .timeout
  | fuel + 1, ps =>
    match ps.get with
    | none => .eof ps
    | some t =>
      let pos := t.pos
      match t.instr with
      | .string s => .node (.string s pos) ps.advance
      | .char c => .node (.char c pos) ps.advance
      | .int n => .node (.int n pos) ps.advance
      | .float q => .node (.float q pos) ps.advance
      | .boolean b => .node (.boolean b pos) ps.advance
      | .id s => .node (.id s pos) ps.advance
      | .take ids => .node (.take ids pos) ps.advance
      | .copy inner ipos => .node (.copy inner ipos pos) ps.advance
      | .copyTo ids => .node (.copyTo ids pos) ps.advance
      | .ifKw =>
        match parseBody fuel ps.advance pos true with
        | .ok ns pos1 ps1 =>
          match ps1.get with
          | some t2 =>
            if t2.instr = .elseKw then
              match parseBody fuel ps1.advance pos1 false with
              | .ok ens pos2 ps2 =>
                let elseChunk := match ens with
                  | [e] => e
                  | _ => Node.chunk ens pos2
                let mainChunk := match ns with
                  | [n] => n
                  | _ => Node.chunk ns pos2
                .node (.ifN mainChunk (some elseChunk) pos2) ps2
              | .err e => .err e
              | .timeout => .timeout
            else
              let mainChunk := match ns with
                | [n] => n
                | _ => Node.chunk ns pos1
              .node (.ifN mainChunk none pos1) ps1
          | none =>
            let mainChunk := match ns with
              | [n] => n
              | _ => Node.chunk ns pos1
            .node (.ifN mainChunk none pos1) ps1
        | .err e => .err e
        | .timeout => .timeout
      | .repeatKw =>
        match parseBody fuel ps.advance pos false with
        | .ok ns pos1 ps1 =>
          let chunk := match ns with
            | [n] => n
            | _ => Node.chunk ns pos1
          .node (.repeatN chunk pos1) ps1
        | .err e => .err e
        | .timeout => .timeout
      | i => .err ⟨"unexpected " ++ i.display, some t.pos⟩

/-- The body-collecting loop shared by the `If` and `Repeat` arms: stop
after consuming `End`, stop (without consuming) at `Else` when `stopElse`,
stop at end-of-tokens. -/
def parseBody : Nat → Parser → Position → Bool → BodyRes
  | 0, _, _, _ => .timeout
  | fuel + 1, ps, pos, stopElse =>
    match ps.get with
    | some t =>
      if t.instr = .endKw then .ok [] pos ps.advance
      else if stopElse && t.instr = .elseKw then .ok [] pos ps
      else
        match parserNext fuel ps with
        | .node n ps2 =>
          match parseBody fuel ps2 (pos.extend n.pos) stopElse with
          | .ok ns pos2 ps3 => .ok (n :: ns) pos2 ps3
          | r => r
        | .eof ps2 =>
          parseBody fuel ps2 pos stopElse
        | .err e => .err e
        | .timeout => .timeout
    | none => .ok [] pos ps

end

/-- A `Parser::parse` result. -/
inductive NodeRes where
  | ok (n : Node)
  | err (e : Err)
  | timeout

/-- The root-chunk loop's result. -/
inductive ChunkRes where
  | ok (ns : List Node) (pos : Position)
  | err (e : Err)
  | timeout

/-- The loop of `Parser::parse`. -/
def parseLoop : Nat → Parser → Position → ChunkRes
  | 0, _, _ => .timeout
  | fuel + 1, ps, pos =>
    match parserNext fuel ps with
    | .node n ps2 =>
      match parseLoop fuel ps2 (pos.extend n.pos) with
      | .ok ns pos2 => .ok (n :: ns) pos2
      | r => r
    | .eof _ => .ok [] pos
    | .err e => .err e
    | .timeout => .timeout

/-- `parse(tokens)`: empty input is an empty chunk at the zero position. -/
def parse (fuel : Nat) (tokens : List Token) : NodeRes :=
  match tokens with
  | [] => .ok (.chunk [] Position.zero)
  | t :: _ =>
    match parseLoop fuel (Parser.new tokens) t.pos with
    | .ok ns pos => .ok (.chunk ns pos)
    | .err e => .err e
    | .timeout => .timeout

/-! ## The parts of `Program::std_program` the theorems dispatch through -/

/-- The `+` overload set, candidates in registration order
(`std_program`). -/
def stdAdd : MacroOverload :=
  [([Ty.int, Ty.int], .operation .add),
   ([Ty.float, Ty.float], .operation .add),
   ([Ty.int, Ty.float], .operation .add),
   ([Ty.float, Ty.int], .operation .add),
   ([Ty.string, Ty.string], .operation .add),
   ([Ty.string, Ty.char], .operation .add)]

/-- The `join` overload set (`std_program`). -/
def stdJoin : MacroOverload :=
  [([Ty.char], .operation .join), ([Ty.string], .operation .join)]

/-! # Lemmas on the association-list state -/

theorem lookupA_insertA_self {α : Type} (l : List (String × α)) (k : String) (v : α) :
    lookupA (insertA l k v) k = some v := by
  induction l with
  | nil => simp [insertA, lookupA]
  | cons kv rest ih =>
    obtain ⟨k1, w⟩ := kv
    by_cases h : k1 = k
    · simp [insertA, h, lookupA]
    · simp [insertA, h, lookupA, ih]

theorem lookupA_insertA_ne {α : Type} (l : List (String × α)) (k1 k2 : String) (v : α)
    (h : k1 ≠ k2) : lookupA (insertA l k1 v) k2 = lookupA l k2 := by
  induction l with
  | nil => simp [insertA, lookupA, h]
  | cons kv rest ih =>
    obtain ⟨k0, w⟩ := kv
    by_cases h0 : k0 = k1
    · simp [insertA, h0, lookupA, h]
    · by_cases h2 : k0 = k2
      · simp [insertA, h0, lookupA, h2, Ne.symm h]
      · simp [insertA, h0, lookupA, h2, ih]

theorem lookupA_removeA_self {α : Type} (l : List (String × α)) (k : String) :
    lookupA (removeA l k) k = none := by
  induction l with
  | nil => simp [removeA, lookupA]
  | cons kv rest ih =>
    obtain ⟨k0, w⟩ := kv
    by_cases h : k0 = k
    · simpa [removeA, h] using ih
    · simpa [removeA, h, lookupA] using ih

/-- The `Take` loop against a stack shorter than the name list: every
available value is popped and bound in order, then the first name left over
raises the underflow error with the stack already emptied. -/
theorem takeLoop_underflow (pos : Position) :
    ∀ (ids : List String) (p : Program) (id : String) (more : List String),
      ids.drop p.stack.length = id :: more →
      takeLoop pos ids p =
        .err ⟨(ids.zip p.stack).foldl (fun vs kv => insertA vs kv.1 kv.2) p.vars,
              p.macros, []⟩
          ⟨"cannot take value to " ++ rustDebugString id ++ " due to stack underflow",
            some pos⟩ := by
  intro ids
  induction ids with
  | nil => intro p id more h; simp at h
  | cons id0 ids ih =>
    intro p id more h
    obtain ⟨vars, macros, stack⟩ := p
    cases stack with
    | nil =>
      simp at h
      obtain ⟨h1, h2⟩ := h
      subst h1; subst h2
      simp [takeLoop]
    | cons v rest =>
      have h2 : ids.drop rest.length = id :: more := by simpa using h
      simpa [takeLoop] using
        ih ⟨insertA vars id0 v, macros, rest⟩ id more (by simpa using h2)

/-! # The claims -/

/-- C1: the claim says every runtime error inside an `If` or `Repeat` body
aborts `Program::run` and is surfaced to the caller.  The source drops the
`Result` of `self.run(*case_node)` / `self.run(*body.clone())`
(src/run.rs:160,162,174), so such an error is swallowed: running
`If(ID "x")` on stack `[true]` (with `x` unbound) returns `ok` with the
error lost, and so does `Repeat(ID "x")` with count `2`, although the body
by itself errors with "unknown id". -/
theorem c1_if_repeat_bodies_swallow_errors :
    runNode 5 ⟨[], [], [.boolean true]⟩ (.ifN (.id "x" Position.zero) none Position.zero) =
      .ok ⟨[], [], []⟩ ∧
    runNode 6 ⟨[], [], [.int 2]⟩ (.repeatN (.id "x" Position.zero) Position.zero) =
      .ok ⟨[], [], []⟩ ∧
    runNode 5 ⟨[], [], []⟩ (.id "x" Position.zero) =
      .err ⟨[], [], []⟩ ⟨"unknown id " ++ rustDebugString "x", some Position.zero⟩ :=
  ⟨rfl, rfl, rfl⟩

/-- C2 counterexample: `(a b)` lexes to `Take ["b","a"]` (the lexer
reverses the declared order), and running it against the stack
`[Int 2 (top), Int 1]` binds `a` to `Int 1`, the element *beneath* the
top — not to the popped former top `Int 2` as the claim states for the
first-declared identifier. -/
theorem c2_counterexample :
    (∃ lx, lex 100 "(a b)" = .toks [⟨.take ["b", "a"], ⟨0, 5, 0, 1, 0, 5⟩⟩] lx) ∧
    runNode 1 ⟨[], [], [.int 2, .int 1]⟩ (.take ["b", "a"] Position.zero) =
      .ok ⟨[("b", .int 2), ("a", .int 1)], [], []⟩ ∧
    lookupA [("b", Value.int 2), ("a", Value.int 1)] "a" = some (.int 1) ∧
    Value.int 1 ≠ Value.int 2 :=
  ⟨⟨_, rfl⟩, rfl, rfl, by decide⟩

/-- C2 amended: the lexer reverses the declared list, so the *last*
declared identifier receives the first pop: for the `Take` lexed from
`(a b)` against a stack `v2 :: v1 :: rest`, `b` is bound to the popped
former top `v2` and `a` to the element `v1` beneath it. -/
theorem c2_amended :
    (∃ lx, lex 100 "(a b)" = .toks [⟨.take ["b", "a"], ⟨0, 5, 0, 1, 0, 5⟩⟩] lx) ∧
    ∀ (fuel : Nat) (vars : List (String × Value)) (macros : List (String × MacroOverload))
      (v1 v2 : Value) (rest : List Value) (pos : Position),
      runNode (fuel + 1) ⟨vars, macros, v2 :: v1 :: rest⟩ (.take ["b", "a"] pos) =
        .ok ⟨insertA (insertA vars "b" v2) "a" v1, macros, rest⟩ ∧
      lookupA (insertA (insertA vars "b" v2) "a" v1) "a" = some v1 ∧
      lookupA (insertA (insertA vars "b" v2) "a" v1) "b" = some v2 := by
  refine ⟨⟨_, rfl⟩, fun fuel vars macros v1 v2 rest pos => ⟨rfl, ?_, ?_⟩⟩
  · exact lookupA_insertA_self _ _ _
  · rw [lookupA_insertA_ne _ "a" "b" _ (by decide)]
    exact lookupA_insertA_self _ _ _

/-- C5: the claim says a negative index always wraps modulo the length.
The source computes `len - |i| % len` (src/run.rs:526), which is `len` —
one past the end — whenever `|i|` is a multiple of `len`, and the byte
slice `string[idx..idx+1]` then panics.  The wrapping works for `-1` on
`"abc"` (index 2, `'c'`), but `-3` on `"abc"` computes index 3 and panics
instead of yielding `'a'` (the `j = 0` the claim requires). -/
theorem c5_neg_index_multiple_of_len_panics :
    _index [.int (-1), .string "abc"] = some [.char 'c'] ∧
    _index [.int 2, .string "abc"] = some [.char 'c'] ∧
    wrapIndex (-3) 3 = 3 ∧
    _index [.int (-3), .string "abc"] = none := by
  refine ⟨?_, ?_, ?_, ?_⟩ <;> decide

/-- C9: a `Repeat` whose stack top is an `Int` count `n ≤ 0` pops only the
count, executes the body zero times (`for _ in 0..count` is empty), and
leaves the rest of the stack and the variable table unchanged. -/
theorem c9_repeat_nonpositive_count (fuel : Nat) (p : Program) (body : Node)
    (pos : Position) (n : ℤ) (rest : List Value)
    (hs : p.stack = .int n :: rest) (hn : n ≤ 0) :
    runNode (fuel + 1) p (.repeatN body pos) = .ok ⟨p.vars, p.macros, rest⟩ := by
  obtain ⟨vars, macros, stack⟩ := p
  simp only at hs
  subst hs
  simp [runNode, Int.toNat_eq_zero.mpr hn, runTimes]

/-- C9 witness: count `-2` over a one-element remainder. -/
theorem c9_repeat_nonpositive_count_witness :
    runNode 1 ⟨[], [], [.int (-2), .string "k"]⟩
      (.repeatN (.id "x" Position.zero) Position.zero) =
      .ok ⟨[], [], [.string "k"]⟩ :=
  c9_repeat_nonpositive_count 0 _ _ _ (-2) _ rfl (by decide)

/-- C10: `join` never fails whatever the remaining stack holds: with a
`Char` or `String` separator on top it consumes the whole remaining stack,
renders each non-`String` value with `Display`, and pushes the single
string of the parts joined bottom-most first; and dispatched through its
registered `[char]`/`[str]` signatures it succeeds the same way. -/
theorem c10_join_never_fails :
    (∀ (c : Char) (rest : List Value),
      _join (.char c :: rest) =
        some [.string (String.intercalate (String.mk [c]) ((rest.map joinPart).reverse))]) ∧
    (∀ (s : String) (rest : List Value),
      _join (.string s :: rest) =
        some [.string (String.intercalate s ((rest.map joinPart).reverse))]) ∧
    (∀ v : Value, joinPart v = v.display) ∧
    (∀ (fuel : Nat) (vars : List (String × Value)) (c : Char) (rest : List Value)
      (pos : Position),
      runNode (fuel + 1) ⟨vars, [("join", stdJoin)], .char c :: rest⟩ (.id "join" pos) =
        .ok ⟨vars, [("join", stdJoin)],
          [.string (String.intercalate (String.mk [c]) ((rest.map joinPart).reverse))]⟩) ∧
    (∀ (fuel : Nat) (vars : List (String × Value)) (s : String) (rest : List Value)
      (pos : Position),
      runNode (fuel + 1) ⟨vars, [("join", stdJoin)], .string s :: rest⟩ (.id "join" pos) =
        .ok ⟨vars, [("join", stdJoin)],
          [.string (String.intercalate s ((rest.map joinPart).reverse))]⟩) := by
  refine ⟨fun c rest => rfl, fun s rest => rfl, fun v => ?_,
    fun fuel vars c rest pos => ?_, fun fuel vars s rest pos => ?_⟩
  · cases v <;> rfl
  · simp [runNode, lookupA, stdJoin, overloadGet, typesMatch, Ty.eqv, Value.typ, applyOp,
      _join]
  · simp [runNode, lookupA, stdJoin, overloadGet, typesMatch, Ty.eqv, Value.typ, applyOp,
      _join]

/-- C3 counterexample: `Take ["a","b"]` against the one-element stack
`[Int 1]` fails with the underflow error, but the stack is *not* left as it
was: the element was already popped and bound to `a`, leaving the stack
empty. -/
theorem c3_counterexample :
    runNode 1 ⟨[], [], [.int 1]⟩ (.take ["a", "b"] Position.zero) =
      .err ⟨[("a", .int 1)], [], []⟩
        ⟨"cannot take value to " ++ rustDebugString "b" ++ " due to stack underflow",
          some Position.zero⟩ ∧
    ([] : List Value) ≠ [.int 1] :=
  ⟨rfl, by decide⟩

/-- C3 amended: an underflowing consuming operation fails with an
underflow-class error, and the stack is left unchanged for `If`, `Repeat`
and a dispatched operation with no matching overload; a `Take` with more
names than stack elements, however, first pops and binds every available
value (emptying the stack) and then fails naming the first unsatisfied
identifier. -/
theorem c3_amended :
    (∀ (fuel : Nat) (p : Program) (ids : List String) (pos : Position) (id : String)
      (more : List String),
      ids.drop p.stack.length = id :: more →
      runNode (fuel + 1) p (.take ids pos) =
        .err ⟨(ids.zip p.stack).foldl (fun vs kv => insertA vs kv.1 kv.2) p.vars,
              p.macros, []⟩
          ⟨"cannot take value to " ++ rustDebugString id ++ " due to stack underflow",
            some pos⟩) ∧
    (∀ (fuel : Nat) (p : Program) (body : Node) (els : Option Node) (pos : Position),
      p.stack = [] →
      runNode (fuel + 1) p (.ifN body els pos) =
        .err p ⟨"couldn\x27t perform if-control-flow operation due to stack underflow",
          some pos⟩) ∧
    (∀ (fuel : Nat) (p : Program) (body : Node) (pos : Position),
      p.stack = [] →
      runNode (fuel + 1) p (.repeatN body pos) =
        .err p ⟨"couldn\x27t perform if-control-flow operation due to stack underflow",
          some pos⟩) ∧
    (∀ (fuel : Nat) (p : Program) (id : String) (pos : Position) (ov : MacroOverload),
      lookupA p.macros id = some ov → overloadGet ov p.stack = none →
      runNode (fuel + 1) p (.id id pos) =
        .err p ⟨"no macro definition " ++ rustDebugString id ++
          " found with current stack, following macros are defined:\n" ++
          overloadDisplay ov id ++ "\n", some pos⟩) := by
  refine ⟨fun fuel p ids pos id more h => ?_, fun fuel p body els pos h => ?_,
    fun fuel p body pos h => ?_, fun fuel p id pos ov h1 h2 => ?_⟩
  · simpa [runNode] using takeLoop_underflow pos ids p id more h
  · obtain ⟨vars, macros, stack⟩ := p
    simp only at h
    subst h
    simp [runNode]
  · obtain ⟨vars, macros, stack⟩ := p
    simp only at h
    subst h
    simp [runNode]
  · simp [runNode, h1, h2, Program.displayMacro]

/-- C3 amended witness: concrete instances of all four parts. -/
theorem c3_amended_witness :
    runNode 1 ⟨[], [], [.int 1]⟩ (.take ["a", "b"] Position.zero) =
      .err ⟨[("a", .int 1)], [], []⟩
        ⟨"cannot take value to " ++ rustDebugString "b" ++ " due to stack underflow",
          some Position.zero⟩ ∧
    runNode 1 ⟨[], [], []⟩ (.ifN (.int 1 Position.zero) none Position.zero) =
      .err ⟨[], [], []⟩
        ⟨"couldn\x27t perform if-control-flow operation due to stack underflow",
          some Position.zero⟩ ∧
    runNode 1 ⟨[], [], []⟩ (.repeatN (.int 1 Position.zero) Position.zero) =
      .err ⟨[], [], []⟩
        ⟨"couldn\x27t perform if-control-flow operation due to stack underflow",
          some Position.zero⟩ ∧
    runNode 1 ⟨[], [("f", [([Ty.int], .operation .drop)])], []⟩ (.id "f" Position.zero) =
      .err ⟨[], [("f", [([Ty.int], .operation .drop)])], []⟩
        ⟨"no macro definition " ++ rustDebugString "f" ++
          " found with current stack, following macros are defined:\n" ++
          overloadDisplay [([Ty.int], .operation .drop)] "f" ++ "\n", some Position.zero⟩ :=
  ⟨c3_amended.1 0 _ ["a", "b"] _ "b" [] rfl,
   c3_amended.2.1 0 _ _ none _ rfl,
   c3_amended.2.2.1 0 _ _ _ rfl,
   c3_amended.2.2.2 0 _ "f" _ _ rfl rfl⟩

/-- C4 counterexample: the token sequences `if 1` and `repeat 1` reach the
end of the tokens without a closing `end`, yet `parse` returns a root Node,
not an error. -/
theorem c4_counterexample :
    (∃ n, parse 10 [⟨.ifKw, ⟨0, 1, 0, 1, 0, 1⟩⟩, ⟨.int 1, ⟨3, 4, 0, 1, 3, 4⟩⟩] = .ok n) ∧
    (∃ n, parse 10 [⟨.repeatKw, ⟨0, 6, 0, 1, 0, 6⟩⟩, ⟨.int 1, ⟨7, 8, 0, 1, 7, 8⟩⟩] =
      .ok n) :=
  ⟨⟨_, rfl⟩, ⟨_, rfl⟩⟩

/-- C4 amended: an `if` or `repeat` whose body reaches the end of the
tokens without a closing `end` is *accepted*: the body loop also stops at
end-of-tokens, and `parse` returns the root Chunk holding the `If`/`Repeat`
node built from the accumulated body. -/
theorem c4_amended (n : ℤ) (pos1 pos2 : Position) :
    parse 10 [⟨.ifKw, pos1⟩, ⟨.int n, pos2⟩] =
      .ok (.chunk [.ifN (.int n pos2) none (pos1.extend pos2)]
        (pos1.extend (pos1.extend pos2))) ∧
    parse 10 [⟨.repeatKw, pos1⟩, ⟨.int n, pos2⟩] =
      .ok (.chunk [.repeatN (.int n pos2) (pos1.extend pos2)]
        (pos1.extend (pos1.extend pos2))) :=
  ⟨rfl, rfl⟩

/-- C6 counterexample: `/` on two `Int` operands does not push an `Int`:
`[Int 6, Int 3]` yields `Float 2.0` (both operands are converted to `f64`,
src/run.rs:414). -/
theorem c6_counterexample :
    _div [.int 3, .int 6] = some [.float 2] ∧
    (Value.float 2).typ ≠ Ty.int :=
  ⟨by norm_num [_div], by decide⟩

/-- C6 amended: for `+ - *` (and `%` when no division by zero panics) two
`Int` operands push an `Int`, two `Float` operands a `Float`, and mixed
operands promote the `Int` and push a `Float`; `/` *always* pushes a
`Float`, also on two `Int` operands.  The dispatch examples hold:
`[Int 2, Int 3]` with `+` gives `Int 5`, `[Float 2.0, Int 3]` with `+`
gives `Float 5.0`.  (Divisor-nonzero hypotheses keep the `ℚ` model honest
where `f64` would produce `inf`/`NaN`.) -/
theorem c6_amended :
    (∀ (m n : ℤ) (rest : List Value),
      _add (.int n :: .int m :: rest) = some (.int (m + n) :: rest) ∧
      _sub (.int n :: .int m :: rest) = some (.int (m - n) :: rest) ∧
      _mult (.int n :: .int m :: rest) = some (.int (m * n) :: rest)) ∧
    (∀ (x y : ℚ) (rest : List Value),
      _add (.float y :: .float x :: rest) = some (.float (x + y) :: rest) ∧
      _sub (.float y :: .float x :: rest) = some (.float (x - y) :: rest) ∧
      _mult (.float y :: .float x :: rest) = some (.float (x * y) :: rest)) ∧
    (∀ (m : ℤ) (y : ℚ) (rest : List Value),
      _add (.float y :: .int m :: rest) = some (.float ((m : ℚ) + y) :: rest) ∧
      _add (.int m :: .float y :: rest) = some (.float ((m : ℚ) + y) :: rest) ∧
      _sub (.float y :: .int m :: rest) = some (.float ((m : ℚ) - y) :: rest) ∧
      _sub (.int m :: .float y :: rest) = some (.float (y - (m : ℚ)) :: rest) ∧
      _mult (.float y :: .int m :: rest) = some (.float ((m : ℚ) * y) :: rest) ∧
      _mult (.int m :: .float y :: rest) = some (.float (y * (m : ℚ)) :: rest)) ∧
    (∀ (m n : ℤ) (rest : List Value), n ≠ 0 →
      _div (.int n :: .int m :: rest) = some (.float ((m : ℚ) / (n : ℚ)) :: rest) ∧
      _module (.int n :: .int m :: rest) = some (.int (Int.tmod m n) :: rest)) ∧
    (∀ (x y : ℚ) (rest : List Value), y ≠ 0 →
      _div (.float y :: .float x :: rest) = some (.float (x / y) :: rest) ∧
      _module (.float y :: .float x :: rest) = some (.float (ratRem x y) :: rest)) ∧
    (∀ (m : ℤ) (y : ℚ) (rest : List Value), y ≠ 0 →
      _div (.float y :: .int m :: rest) = some (.float ((m : ℚ) / y) :: rest) ∧
      _module (.float y :: .int m :: rest) = some (.float (ratRem (m : ℚ) y) :: rest)) ∧
    (∀ (m : ℤ) (y : ℚ) (rest : List Value), m ≠ 0 →
      _div (.int m :: .float y :: rest) = some (.float (y / (m : ℚ)) :: rest) ∧
      _module (.int m :: .float y :: rest) = some (.float (ratRem y (m : ℚ)) :: rest)) ∧
    (∀ (fuel : Nat) (pos : Position),
      runNode (fuel + 1) ⟨[], [("+", stdAdd)], [.int 3, .int 2]⟩ (.id "+" pos) =
        .ok ⟨[], [("+", stdAdd)], [.int 5]⟩ ∧
      runNode (fuel + 1) ⟨[], [("+", stdAdd)], [.int 3, .float 2]⟩ (.id "+" pos) =
        .ok ⟨[], [("+", stdAdd)], [.float 5]⟩) := by
  refine ⟨fun m n rest => ⟨rfl, rfl, rfl⟩,
    fun x y rest => ⟨rfl, rfl, rfl⟩,
    fun m y rest => ⟨rfl, rfl, rfl, rfl, rfl, rfl⟩,
    fun m n rest hn => ⟨rfl, ?_⟩,
    fun x y rest hy => ⟨rfl, rfl⟩,
    fun m y rest hy => ⟨rfl, rfl⟩,
    fun m y rest hm => ⟨rfl, rfl⟩,
    fun fuel pos => ⟨?_, ?_⟩⟩
  · simp [_module, hn]
  · simp [runNode, lookupA, stdAdd, overloadGet, typesMatch, Ty.eqv, Value.typ, applyOp,
      _add]
  · simp [runNode, lookupA, stdAdd, overloadGet, typesMatch, Ty.eqv, Value.typ, applyOp,
      _add]
    norm_num

/-- C6 amended witness: concrete instances discharging the nonzero-divisor
hypotheses. -/
theorem c6_amended_witness :
    _div [Value.int 3, Value.int 7] = some [.float ((7 : ℚ) / (3 : ℚ))] ∧
    _module [Value.int 3, Value.int 7] = some [.int (Int.tmod 7 3)] ∧
    _div [Value.float 2, Value.float 7] = some [.float ((7 : ℚ) / 2)] ∧
    _div [Value.float 2, Value.int 7] = some [.float ((7 : ℚ) / 2)] ∧
    _div [Value.int 2, Value.float 7] = some [.float ((7 : ℚ) / (2 : ℚ))] :=
  ⟨(c6_amended.2.2.2.1 7 3 [] (by decide)).1,
   (c6_amended.2.2.2.1 7 3 [] (by decide)).2,
   (c6_amended.2.2.2.2.1 7 2 [] (by decide)).1,
   (c6_amended.2.2.2.2.2.1 7 2 [] (by decide)).1,
   (c6_amended.2.2.2.2.2.2.1 2 7 [] (by decide)).1⟩

/-- C7: a dispatch candidate returned by `MacroOverload::get` always has a
type sequence no longer than the stack that matches it from the top
backward (so an implementation only ever executes under that precondition),
and when no candidate matches, `run` fails with an error whose message
enumerates every registered signature of the operation. -/
theorem c7_dispatch_invariant :
    (∀ (ov : MacroOverload) (stack : List Value) (mt : MacroType),
      overloadGet ov stack = some mt →
      ∃ types, (types, mt) ∈ ov ∧ types.length ≤ stack.length ∧
        typesMatch types stack = true) ∧
    (∀ (fuel : Nat) (p : Program) (id : String) (pos : Position) (ov : MacroOverload),
      lookupA p.macros id = some ov → overloadGet ov p.stack = none →
      runNode (fuel + 1) p (.id id pos) =
        .err p ⟨"no macro definition " ++ rustDebugString id ++
          " found with current stack, following macros are defined:\n" ++
          String.join (ov.map fun c =>
            "[" ++ String.intercalate " " (c.1.map Ty.display) ++ "] " ++ id ++ "\n") ++
          "\n", some pos⟩) := by
  constructor
  · intro ov stack mt h
    induction ov with
    | nil => simp [overloadGet] at h
    | cons c rest ih =>
      obtain ⟨types, mt0⟩ := c
      by_cases hl : types.length ≤ stack.length
      · by_cases hm : typesMatch types stack = true
        · have : mt0 = mt := by simpa [overloadGet, hl, hm] using h
          subst this
          exact ⟨types, List.mem_cons_self _ _, hl, hm⟩
        · obtain ⟨t2, hmem, hl2, hm2⟩ := ih (by simpa [overloadGet, hl, hm] using h)
          exact ⟨t2, List.mem_cons_of_mem _ hmem, hl2, hm2⟩
      · obtain ⟨t2, hmem, hl2, hm2⟩ := ih (by simpa [overloadGet, hl] using h)
        exact ⟨t2, List.mem_cons_of_mem _ hmem, hl2, hm2⟩
  · intro fuel p id pos ov h1 h2
    simp [runNode, h1, h2, Program.displayMacro, overloadDisplay]

/-- C7 witness: a matching candidate (selected under its precondition) and
a concrete failed dispatch whose message lists both registered
signatures. -/
theorem c7_dispatch_invariant_witness :
    (∃ types, (types, MacroType.operation OpTag.drop) ∈
        ([([Ty.any], .operation .drop)] : MacroOverload) ∧
      types.length ≤ [Value.int 1].length ∧ typesMatch types [Value.int 1] = true) ∧
    runNode 1 ⟨[], [("+", [([Ty.int, Ty.int], .operation .add),
        ([Ty.float, Ty.float], .operation .add)])], [.boolean true]⟩
      (.id "+" Position.zero) =
      .err ⟨[], [("+", [([Ty.int, Ty.int], .operation .add),
          ([Ty.float, Ty.float], .operation .add)])], [.boolean true]⟩
        ⟨"no macro definition " ++ rustDebugString "+" ++
          " found with current stack, following macros are defined:\n" ++
          String.join (([([Ty.int, Ty.int], MacroType.operation OpTag.add),
              ([Ty.float, Ty.float], MacroType.operation OpTag.add)] :
              MacroOverload).map fun c =>
            "[" ++ String.intercalate " " (c.1.map Ty.display) ++ "] " ++ "+" ++ "\n") ++
          "\n", some Position.zero⟩ :=
  ⟨c7_dispatch_invariant.1 [([Ty.any], .operation .drop)] [Value.int 1] _ rfl,
   c7_dispatch_invariant.2 0 _ "+" _ _ rfl rfl⟩

/-- C8: a variable read is consuming: when `x` names no registered
operation and is bound, the bare identifier `x` pushes the value and
removes the binding, and a second read of `x` fails with the
unknown-identifier error. -/
theorem c8_consuming_variable_read (fuel fuel2 : Nat) (p : Program) (x : String)
    (pos pos2 : Position) (v : Value)
    (h1 : lookupA p.macros x = none) (h2 : lookupA p.vars x = some v) :
    runNode (fuel + 1) p (.id x pos) = .ok ⟨removeA p.vars x, p.macros, v :: p.stack⟩ ∧
    lookupA (removeA p.vars x) x = none ∧
    runNode (fuel2 + 1) ⟨removeA p.vars x, p.macros, v :: p.stack⟩ (.id x pos2) =
      .err ⟨removeA p.vars x, p.macros, v :: p.stack⟩
        ⟨"unknown id " ++ rustDebugString x, some pos2⟩ := by
  refine ⟨?_, lookupA_removeA_self _ _, ?_⟩
  · obtain ⟨vars, macros, stack⟩ := p
    simp only at h1 h2
    simp [runNode, h1, h2]
  · simp [runNode, h1, lookupA_removeA_self]

/-- C8 witness: bind `x`, read it twice. -/
theorem c8_consuming_variable_read_witness :
    runNode 1 ⟨[("x", .int 7)], [], []⟩ (.id "x" Position.zero) =
      .ok ⟨[], [], [.int 7]⟩ ∧
    lookupA (removeA [("x", Value.int 7)] "x") "x" = none ∧
    runNode 1 ⟨[], [], [.int 7]⟩ (.id "x" Position.zero) =
      .err ⟨[], [], [.int 7]⟩ ⟨"unknown id " ++ rustDebugString "x", some Position.zero⟩ :=
  c8_consuming_variable_read 0 0 ⟨[("x", .int 7)], [], []⟩ "x" Position.zero
    Position.zero (.int 7) rfl rfl

end Str
